import Mathlib

/-
Verification development for the news-summarizer repository.

The Python sources are shallowly embedded as executable Lean definitions:

* `HTMLCleaner` models `src/utils/html_cleaner.py` (the html2text conversion
  performed by the external `html2text` library is an abstract function
  parameter, since that library is an external collaborator).
* `EmailCollector` models `src/collectors/email_collector.py`.  The IMAP
  session is modelled as a deterministic oracle (`ImapServer`) giving the
  outcome of each protocol call, and exceptions are explicit `Except` values.
  Byte payloads are modelled as their decoded text (the charset decode with
  errors ignored is total, and `None`/empty bytes are both falsy in Python,
  so both are modelled by the empty string).
* `AIProcessor` models `src/processors/ai_processor.py`; the OpenAI client
  call is an oracle value and the exception universe is the tuple of
  exception classes that the code names.
* `NewsSummarizer` models the per-domain control flow of `src/main.py` with
  collaborator behaviours supplied by an environment, recording which
  collaborators are invoked.
* The Python `datetime`/`timedelta`/`strftime` calendar arithmetic used by
  `_build_search_criteria` is modelled by the standard civil-calendar
  day-number conversion over `Int` (proleptic Gregorian calendar, the same
  calendar `datetime.date` implements).
-/

/-- Python `str.strip()`: remove leading and trailing whitespace characters.
(`String.trim` is extensionally the same but is not used because its
implementation does not reduce inside the kernel.) -/
def pystrip (s : String) : String :=
  String.mk (((s.data.dropWhile Char.isWhitespace).reverse.dropWhile
    Char.isWhitespace).reverse)

namespace HTMLCleaner

/-- One step of `re.sub(r"c{k,}", c*m, _)`: emit a pending maximal run of `n`
copies of `c`; a run of length at least `k` is replaced by `m` copies,
shorter runs are kept as they are. -/
def emitRun (c : Char) (k m n : Nat) : List Char :=
  List.replicate (if k ≤ n then m else n) c

/-- Worker for `collapseRuns`: `n` counts the pending run of `c` seen so far. -/
def collapseRunsAux (c : Char) (k m : Nat) : List Char → Nat → List Char
  | [], n => emitRun c k m n
  | x :: xs, n =>
    if x = c then collapseRunsAux c k m xs (n + 1)
    else emitRun c k m n ++ x :: collapseRunsAux c k m xs 0

/-- `collapseRuns c k m l` replaces every maximal run of at least `k`
consecutive copies of `c` in `l` by exactly `m` copies: the effect of
`re.sub(r"c{k,}", c*m, l)` for a single-character pattern. -/
def collapseRuns (c : Char) (k m : Nat) (l : List Char) : List Char :=
  collapseRunsAux c k m l 0

/-- `HTMLCleaner._normalize_whitespace`: first collapse runs of 3 or more
newlines to exactly two newlines, then collapse runs of 2 or more spaces to a
single space. -/
def normalize_whitespace (text : String) : String :=
  String.mk (collapseRuns ' ' 2 1 (collapseRuns '\n' 3 2 text.data))

/-- `HTMLCleaner.clean`, with the `html2text.HTML2Text.handle` conversion of
the external library abstracted as the function argument `h2t`.  Empty input
short-circuits to the empty string; otherwise the converted text is
whitespace-normalized and stripped. -/
def clean (h2t : String → String) (html_content : String) : String :=
  if html_content = "" then ""
  else pystrip (normalize_whitespace (h2t html_content))

/-- `HTMLCleaner.clean_simple`: whitespace normalization and strip without
markup conversion. -/
def clean_simple (text : String) : String :=
  pystrip (normalize_whitespace text)

/-- `runBounded c k l n = true` iff, prepending a pending run of `n` copies of
`c` in front of `l`, every maximal run of `c` has length strictly below `k`. -/
def runBounded (c : Char) (k : Nat) : List Char → Nat → Bool
  | [], n => decide (n < k)
  | x :: xs, n =>
    if x = c then runBounded c k xs (n + 1)
    else decide (n < k) && runBounded c k xs 0

end HTMLCleaner

/-- `SourceItem` from `src/models.py`.  `timestamp` is an abstract point in
time (the `datetime` value produced by the external date parser), and
`raw_data` is the `{"sender": ..., "subject": ...}` dictionary, modelled as
the pair of its two values. -/
structure SourceItem where
  source_type : String
  source_id : String
  title : String
  content : String
  url : Option String := none
  timestamp : Option Int := none
  raw_data : Option (String × String) := none
deriving DecidableEq

/-- External library collaborators used by the collector, abstracted as
functions: `html2text.HTML2Text.handle`, `email.header.decode_header`
(returning the list of charset-decoded segment strings),
`email.utils.parsedate_to_datetime` (with its `ValueError`/`TypeError`
fallback to `None` folded in), and the URL regex
`list(set(re.findall(...)))[:5]` (whose set-iteration order is
interpreter-dependent; no claim depends on its output). -/
structure ExternalFns where
  html2textHandle : String → String
  decodeHeaderParts : String → List String
  parseDate : String → Option Int
  findUrls : String → List String

mutual

/-- One MIME part of an `email.message.Message`.  A leaf carries its declared
content type and its decoded payload text: `get_payload(decode=True)`
followed by `.decode(charset, errors="ignore")` is modelled as the payload
string itself, with the empty string standing for both an absent (`None`)
and an empty payload — both are falsy in the Python code.  A `multi` node
is a `multipart/<subtype>` container. -/
inductive MsgPart where
  | leaf (contentType : String) (payload : String)
  | multi (subtype : String) (parts : MsgParts)

/-- The subpart sequence of a multipart container (an inlined list, so that
recursion over the part tree is structural). -/
inductive MsgParts where
  | nil
  | cons (p : MsgPart) (ps : MsgParts)

end

/-- Build a subpart sequence from a list literal. -/
def MsgParts.ofList : List MsgPart → MsgParts
  | [] => MsgParts.nil
  | p :: ps => MsgParts.cons p (MsgParts.ofList ps)

/-- `Message.get_content_type()`. -/
def part_content_type : MsgPart → String
  | MsgPart.leaf ct _ => ct
  | MsgPart.multi st _ => "multipart/" ++ st

/-- `Message.get_payload(decode=True)` as decoded text; a multipart container
has no decodable payload (`None` in Python, the empty string here). -/
def part_payload : MsgPart → String
  | MsgPart.leaf _ p => p
  | MsgPart.multi _ _ => ""

mutual

/-- `Message.walk()`: the part itself followed by the walk of each subpart,
depth first, in declared order. -/
def walk : MsgPart → List MsgPart
  | MsgPart.leaf ct p => [MsgPart.leaf ct p]
  | MsgPart.multi st ps => MsgPart.multi st ps :: walkParts ps

/-- `walk` mapped over a subpart sequence. -/
def walkParts : MsgParts → List MsgPart
  | MsgParts.nil => []
  | MsgParts.cons p ps => walk p ++ walkParts ps

end

/-- A top-level email message: the headers read by the collector plus the
body part tree.  A `none` header models an absent header. -/
structure EmailMsg where
  subject : Option String
  fromHeader : Option String
  dateHeader : Option String
  body : MsgPart

/-- Python exceptions relevant to the collector: `imaplib.IMAP4.error`, the
`email` package's `MessageError`, and OS/socket-level errors (everything the
transport can raise that is neither of the former, e.g. `socket.gaierror`
from `IMAP4_SSL(...)`). -/
inductive PyExc where
  | imap4Error
  | messageError
  | osError
deriving DecidableEq

/-- A proleptic-Gregorian calendar date, the date component of a Python
`datetime`. -/
structure Date where
  year : Int
  month : Int
  day : Int
deriving DecidableEq

/-- Day number of a civil date (days since 1970-01-01), the standard civil
calendar conversion implemented by Python's `datetime.date.toordinal`
(shifted to the Unix epoch).  This models the calendar arithmetic of
`datetime.now() - timedelta(days=n)`. -/
def daysFromCivil (y m d : Int) : Int :=
  let y' := if m ≤ 2 then y - 1 else y
  let era := Int.fdiv y' 400
  let yoe := y' - era * 400
  let mp := Int.emod (m + 9) 12
  let doy := Int.fdiv (153 * mp + 2) 5 + d - 1
  let doe := yoe * 365 + Int.fdiv yoe 4 - Int.fdiv yoe 100 + doy
  era * 146097 + doe - 719468

/-- Civil date of a day number: inverse conversion of `daysFromCivil`. -/
def civilFromDays (z0 : Int) : Date :=
  let z := z0 + 719468
  let era := Int.fdiv z 146097
  let doe := z - era * 146097
  let yoe := Int.fdiv (doe - Int.fdiv doe 1460 + Int.fdiv doe 36524 - Int.fdiv doe 146096) 365
  let y := yoe + era * 400
  let doy := doe - (365 * yoe + Int.fdiv yoe 4 - Int.fdiv yoe 100)
  let mp := Int.fdiv (5 * doy + 2) 153
  let d := doy - Int.fdiv (153 * mp + 2) 5 + 1
  let m := if mp < 10 then mp + 3 else mp - 9
  { year := if m ≤ 2 then y + 1 else y, month := m, day := d }

/-- `strftime` month abbreviation (`%b`, C locale). -/
def monthAbbrev (m : Int) : String :=
  if m = 1 then "Jan" else if m = 2 then "Feb" else if m = 3 then "Mar"
  else if m = 4 then "Apr" else if m = 5 then "May" else if m = 6 then "Jun"
  else if m = 7 then "Jul" else if m = 8 then "Aug" else if m = 9 then "Sep"
  else if m = 10 then "Oct" else if m = 11 then "Nov" else if m = 12 then "Dec"
  else ""

/-- Zero-padded two-digit day (`%d`). -/
def pad2 (n : Int) : String :=
  if n < 10 then "0" ++ toString n else toString n

/-- `strftime("%d-%b-%Y")` on a date. -/
def strftime_d_b_Y (date : Date) : String :=
  pad2 date.day ++ "-" ++ monthAbbrev date.month ++ "-" ++ toString date.year

namespace EmailCollector

/-- The configuration fields read by `EmailCollector.__init__`, with the
`config.get` defaults of the source. -/
structure CollectorConfig where
  imap_server : String := "imap.gmail.com"
  imap_port : Int := 993
  email_account : String := ""
  email_password : String := ""
  mailbox : String := "INBOX"
  mark_as_seen : Bool := true
  time_range_days : Int := 1

/-- Deterministic oracle for one IMAP session: the outcome of every protocol
call the collector can make.  `Except.error` models the call raising the
given exception. -/
structure ImapServer where
  connectSSL : Except PyExc Unit
  loginStep : Except PyExc Unit
  idCommand : Except PyExc Unit
  selectMailbox : String → Except PyExc (String × String)
  searchStep : String → Except PyExc (List String)
  fetchRFC822 : String → Except PyExc (Option EmailMsg)
  store : String → String → String → Except PyExc Unit
  closeLogout : Except PyExc Unit

/-- A `STORE` command issued on the session: message id, flag command
(`"+FLAGS"` or `"-FLAGS"`), and flag string. -/
structure StoreOp where
  msgId : String
  command : String
  flags : String
deriving DecidableEq

/-- `EmailCollector._connect`: constructor, then `login`, then the `ID`
handshake.  The `except ... log ... raise` wrappers around login and the ID
command re-raise the same exception, so they are the identity on errors.
The mutation of `imaplib.Commands` and the ID argument string are
unobservable and not modelled. -/
def connect_steps (srv : ImapServer) : Except PyExc Unit :=
  match srv.connectSSL with
  | Except.error e => Except.error e
  | Except.ok _ =>
    match srv.loginStep with
    | Except.error e => Except.error e
    | Except.ok _ =>
      match srv.idCommand with
      | Except.error e => Except.error e
      | Except.ok _ => Except.ok ()

/-- `EmailCollector._build_search_criteria`, with `datetime.now()` supplied
as the reference clock `now`: format `now - timedelta(days=time_range_days)`
with `strftime("%d-%b-%Y")` and wrap it in the UNSEEN/SINCE filter. -/
def build_search_criteria (now : Date) (time_range_days : Int) : String :=
  let since_date :=
    strftime_d_b_Y (civilFromDays (daysFromCivil now.year now.month now.day - time_range_days))
  "(UNSEEN SINCE \"" ++ since_date ++ "\")"

/-- `EmailCollector._decode_header`: falsy headers fall back to the sentinel;
otherwise the decoded segments are concatenated and stripped. -/
def decode_header (ext : ExternalFns) (header_value : String) : String :=
  if header_value = "" then "No Subject"
  else pystrip (String.join (ext.decodeHeaderParts header_value))

/-- Python `str.strip(">")`: remove leading and trailing `>` characters. -/
def strip_gt (s : String) : String :=
  String.mk (((s.data.dropWhile (fun ch => ch = '>')).reverse.dropWhile
    (fun ch => ch = '>')).reverse)

/-- `EmailCollector._extract_sender`: take the angle-bracket address when a
`<` is present, else the stripped raw header. -/
def extract_sender (msg : EmailMsg) : String :=
  let from_header := msg.fromHeader.getD ""
  match (from_header.data.splitOn '<').map String.mk with
  | _ :: second :: _ => strip_gt second
  | _ => pystrip from_header

/-- The `for part in msg.walk()` loop of `EmailCollector._extract_content`:
the first part whose content type is `text/plain` or `text/html` and whose
payload is truthy is cleaned and returned; otherwise the loop falls through
to the final `return ""`. -/
def content_loop (ext : ExternalFns) : List MsgPart → String
  | [] => ""
  | p :: rest =>
    if part_content_type p = "text/plain" then
      if part_payload p = "" then content_loop ext rest
      else HTMLCleaner.clean ext.html2textHandle (part_payload p)
    else if part_content_type p = "text/html" then
      if part_payload p = "" then content_loop ext rest
      else HTMLCleaner.clean ext.html2textHandle (part_payload p)
    else content_loop ext rest

/-- `EmailCollector._extract_content`: walk a multipart message as above; a
single-part message's payload is cleaned directly when truthy. -/
def extract_content (ext : ExternalFns) (msg : EmailMsg) : String :=
  match msg.body with
  | MsgPart.multi st ps => content_loop ext (walk (MsgPart.multi st ps))
  | MsgPart.leaf _ payload =>
    if payload = "" then "" else HTMLCleaner.clean ext.html2textHandle payload

/-- `EmailCollector._extract_timestamp`: absent or unparsable `Date` header
yields no timestamp. -/
def extract_timestamp (ext : ExternalFns) (msg : EmailMsg) : Option Int :=
  let date_str := msg.dateHeader.getD ""
  if date_str = "" then none
  else ext.parseDate date_str

/-- `EmailCollector._extract_urls` via the external regex collaborator. -/
def extract_urls (ext : ExternalFns) (content : String) : List String :=
  ext.findUrls content

/-- `EmailCollector._process_email`: fetch the envelope (empty response data
skips the message), decode headers, extract content, and discard messages
whose content strips to the empty string. -/
def process_email (ext : ExternalFns) (cfg : CollectorConfig) (srv : ImapServer)
    (msg_id : String) : Except PyExc (Option SourceItem) :=
  match srv.fetchRFC822 msg_id with
  | Except.error e => Except.error e
  | Except.ok none => Except.ok none
  | Except.ok (some msg) =>
    let subject := decode_header ext (msg.subject.getD "No Subject")
    let sender := extract_sender msg
    let content := extract_content ext msg
    let timestamp := extract_timestamp ext msg
    let urls := extract_urls ext content
    if pystrip content = "" then Except.ok none
    else Except.ok (some
      { source_type := "email"
        source_id := cfg.email_account ++ ":" ++ msg_id
        title := subject
        content := content
        url := urls.head?
        timestamp := timestamp
        raw_data := some (sender, subject) })

/-- The `for msg_id in message_id_list` loop of `EmailCollector.collect`.
State: accumulated items and the trace of issued `STORE` commands.  The
inner `except (imaplib.IMAP4.error, email.message.MessageError)` catches
those two exception kinds per message and continues; any other exception
aborts the loop carrying the exception (first component `some e`).  After a
successful item, when `mark_as_seen` is false the code issues
`store(msg_id, "+FLAGS", "\\Seen")`. -/
def processLoop (ext : ExternalFns) (cfg : CollectorConfig) (srv : ImapServer) :
    List String → List SourceItem → List StoreOp →
      Option PyExc × List SourceItem × List StoreOp
  | [], items, tr => (none, items, tr)
  | msg_id :: rest, items, tr =>
    match process_email ext cfg srv msg_id with
    | Except.error e =>
      if e = PyExc.imap4Error ∨ e = PyExc.messageError then
        processLoop ext cfg srv rest items tr
      else (some e, items, tr)
    | Except.ok none => processLoop ext cfg srv rest items tr
    | Except.ok (some item) =>
      let items' := items ++ [item]
      if cfg.mark_as_seen then processLoop ext cfg srv rest items' tr
      else
        let tr' := tr ++ [{ msgId := msg_id, command := "+FLAGS", flags := "\\Seen" }]
        match srv.store msg_id "+FLAGS" "\\Seen" with
        | Except.ok _ => processLoop ext cfg srv rest items' tr'
        | Except.error e =>
          if e = PyExc.imap4Error ∨ e = PyExc.messageError then
            processLoop ext cfg srv rest items' tr'
          else (some e, items', tr')

/-- The `finally` block of `collect`: `close`/`logout` wrapped in
`except imaplib.IMAP4.error`.  A protocol error is logged and ignored; any
other exception raised in a `finally` block supersedes the pending result. -/
def apply_finally (srv : ImapServer) (r : Except PyExc (List SourceItem) × List StoreOp) :
    Except PyExc (List SourceItem) × List StoreOp :=
  match srv.closeLogout with
  | Except.ok _ => r
  | Except.error e => if e = PyExc.imap4Error then r else (Except.error e, r.2)

/-- `EmailCollector.collect`.  The outer `except imaplib.IMAP4.error` turns a
protocol error anywhere in the `try` block into `return items` (the items
accumulated so far); other exceptions propagate.  The `finally` close runs
only when `_connect` succeeded, since otherwise `mail` is still `None`.
The first component is the returned list, or the propagated exception; the
second is the trace of issued `STORE` commands. -/
def collect (ext : ExternalFns) (cfg : CollectorConfig) (now : Date) (srv : ImapServer) :
    Except PyExc (List SourceItem) × List StoreOp :=
  match connect_steps srv with
  | Except.error e =>
    (if e = PyExc.imap4Error then Except.ok [] else Except.error e, [])
  | Except.ok _ =>
    apply_finally srv
      (match srv.selectMailbox cfg.mailbox with
       | Except.error e =>
         (if e = PyExc.imap4Error then Except.ok [] else Except.error e, [])
       | Except.ok sres =>
         if sres.1 ≠ "OK" then (Except.ok [], [])
         else
           match srv.searchStep (build_search_criteria now cfg.time_range_days) with
           | Except.error e =>
             (if e = PyExc.imap4Error then Except.ok [] else Except.error e, [])
           | Except.ok message_id_list =>
             match processLoop ext cfg srv message_id_list [] [] with
             | (none, items, tr) => (Except.ok items, tr)
             | (some e, items, tr) =>
               (if e = PyExc.imap4Error then Except.ok items else Except.error e, tr))

/-- The condition under which the `_extract_content` walk loop stops at a
part: its declared content type is `text/plain` or `text/html` and its
payload is truthy.  (Read off the loop's branch conditions.) -/
def is_text_part (p : MsgPart) : Bool :=
  (part_content_type p = "text/plain" || part_content_type p = "text/html")
    && !(part_payload p = "")

end EmailCollector

namespace AIProcessor

/-- The exception classes named by `AIProcessor.process`'s `except` clause:
`APIError`, `APIConnectionError`, `RateLimitError` — the transport,
rate-limit, and API errors the OpenAI client raises. -/
inductive OpenAIExcKind where
  | apiError
  | apiConnectionError
  | rateLimitError
deriving DecidableEq

/-- Oracle for one `client.chat.completions.create` call: either the content
of `response.choices[0].message.content` (which may be `None`), or a raised
exception together with its `str(e)` rendering. -/
structure AIEnv where
  completion : Except (OpenAIExcKind × String) (Option String)

/-- One numbered block of `AIProcessor._combine_items`. -/
def combine_block (i : Nat) (item : SourceItem) : String :=
  let source_info :=
    "来源: " ++ item.source_type ++
      (match item.url with
       | some u => " | 链接: " ++ u
       | none => "")
  "--- 新闻 " ++ toString i ++ " ---\n" ++
    "标题: " ++ item.title ++ "\n" ++
    source_info ++ "\n" ++
    "内容: " ++ item.content.take 1000

/-- `AIProcessor._combine_items`: numbered blocks joined by blank lines. -/
def combine_items (items : List SourceItem) : String :=
  String.intercalate "\n\n" ((items.enumFrom 1).map (fun p => combine_block p.1 p.2))

/-- `AIProcessor.process`.  `prompt_template` is the result of
`_load_prompt` (file I/O, an external collaborator).  The Boolean records
whether the completion call was invoked.  The `except` clause is exactly the
tuple `(APIError, APIConnectionError, RateLimitError)`; since those are all
the kinds in `OpenAIExcKind`, the match on errors is exhaustive and no
exception propagates. -/
def process (prompt_template : String) (env : AIEnv) (items : List SourceItem) :
    String × Bool :=
  if items.isEmpty then ("今日无新闻内容。", false)
  else
    let combined_content := combine_items items
    let _prompt := prompt_template.replace "{combined_content}" combined_content
    match env.completion with
    | Except.ok summary =>
      (match summary with
       | some s => if s = "" then "生成摘要失败。" else s
       | none => "生成摘要失败。", true)
    | Except.error (OpenAIExcKind.apiError, msg) => ("AI处理失败: " ++ msg, true)
    | Except.error (OpenAIExcKind.apiConnectionError, msg) => ("AI处理失败: " ++ msg, true)
    | Except.error (OpenAIExcKind.rateLimitError, msg) => ("AI处理失败: " ++ msg, true)

end AIProcessor

namespace NewsSummarizer

/-- Outcome of `_create_collector` plus `collector.collect()` for one entry
of the domain's collector list: unknown type tag (skipped), a raised
exception (caught, logged, skipped), or a list of items. -/
inductive CollectorOutcome where
  | unknownType
  | failed (e : PyExc)
  | collected (items : List SourceItem)

/-- The two downstream collaborator invocations the orchestrator can make
for a domain. -/
inductive CollabCall where
  | processorProcess
  | senderSend
deriving DecidableEq

/-- Behaviour of one domain's configured collaborators, supplied as an
environment: per-collector outcomes, whether processor/sender configuration
is present and of a known type, and the outcome of invoking each. -/
structure DomainEnv where
  collectors : List CollectorOutcome
  processor_configured : Bool
  processor_known : Bool
  process_outcome : Except PyExc String
  sender_configured : Bool
  sender_known : Bool
  send_outcome : Except PyExc Bool

/-- `NewsSummarizer._collect_items`: extend the aggregate list with each
collector's items; unknown types and raised exceptions contribute nothing. -/
def collect_items (outcomes : List CollectorOutcome) : List SourceItem :=
  outcomes.foldl
    (fun acc oc =>
      match oc with
      | CollectorOutcome.unknownType => acc
      | CollectorOutcome.failed _ => acc
      | CollectorOutcome.collected items => acc ++ items)
    []

/-- `NewsSummarizer._process_items`: missing or unknown processor
configuration yields `None` without a call; otherwise the processor is
invoked, a raised exception being caught and converted to `None`.  The
second component records the collaborator calls made. -/
def process_items_stage (env : DomainEnv) : Option String × List CollabCall :=
  if env.processor_configured = false then (none, [])
  else if env.processor_known = false then (none, [])
  else
    match env.process_outcome with
    | Except.ok s => (some s, [CollabCall.processorProcess])
    | Except.error _ => (none, [CollabCall.processorProcess])

/-- `NewsSummarizer._send_report`: missing or unknown sender configuration
yields `False` without a call; a raised exception is caught and converted to
`False`. -/
def send_report_stage (env : DomainEnv) : Bool × List CollabCall :=
  if env.sender_configured = false then (false, [])
  else if env.sender_known = false then (false, [])
  else
    match env.send_outcome with
    | Except.ok b => (b, [CollabCall.senderSend])
    | Except.error _ => (false, [CollabCall.senderSend])

/-- `NewsSummarizer._process_domain`: collect, stop on an empty aggregate
list, process, stop on falsy content, send.  The result is the list of
downstream collaborator calls made for the domain. -/
def process_domain (env : DomainEnv) : List CollabCall :=
  let items := collect_items env.collectors
  if items.isEmpty then []
  else
    let pr := process_items_stage env
    match pr.1 with
    | none => pr.2
    | some content =>
      if content = "" then pr.2
      else pr.2 ++ (send_report_stage env).2

end NewsSummarizer

section ConcreteInstances

open EmailCollector AIProcessor NewsSummarizer

/-- Concrete external collaborators for closed evaluations: the identity
markup conversion, single-segment header decoding (what
`email.header.decode_header` returns on a header with no encoded words), no
parsable dates, no URL matches. -/
def ext0 : ExternalFns :=
  { html2textHandle := fun s => s
    decodeHeaderParts := fun s => [s]
    parseDate := fun _ => none
    findUrls := fun _ => [] }

/-- Default collector configuration. -/
def cfg0 : CollectorConfig := {}

/-- Collector configuration with mark-as-seen disabled. -/
def cfgC1 : CollectorConfig := { email_account := "a@b.c", mark_as_seen := false }

/-- A fixed reference clock. -/
def today0 : Date := { year := 2024, month := 6, day := 10 }

/-- A plain single-part message with non-empty body. -/
def msgC1 : EmailMsg :=
  { subject := some "Hi"
    fromHeader := some "x <y@z>"
    dateHeader := none
    body := MsgPart.leaf "text/plain" "hello" }

/-- A healthy one-message session serving `msgC1`. -/
def srvC1 : ImapServer :=
  { connectSSL := Except.ok ()
    loginStep := Except.ok ()
    idCommand := Except.ok ()
    selectMailbox := fun _ => Except.ok ("OK", "1")
    searchStep := fun _ => Except.ok ["1"]
    fetchRFC822 := fun _ => Except.ok (some msgC1)
    store := fun _ _ _ => Except.ok ()
    closeLogout := Except.ok () }

/-- The item `collect` produces from `msgC1` under `cfgC1`. -/
def itemC1 : SourceItem :=
  { source_type := "email", source_id := "a@b.c:1", title := "Hi", content := "hello",
    url := none, timestamp := none, raw_data := some ("y@z", "Hi") }

/-- A session whose connection step raises `imaplib.IMAP4.error`. -/
def srvImapFail : ImapServer := { srvC1 with connectSSL := Except.error PyExc.imap4Error }

/-- A session whose connection step raises an OS-level error (e.g.
`socket.gaierror` on an unreachable host). -/
def srvOsFail : ImapServer := { srvC1 with connectSSL := Except.error PyExc.osError }

/-- A message whose only body part is whitespace. -/
def msgWS : EmailMsg :=
  { subject := some "s", fromHeader := none, dateHeader := none,
    body := MsgPart.leaf "text/plain" "   " }

/-- A session serving the whitespace-only message. -/
def srvC3 : ImapServer := { srvC1 with fetchRFC822 := fun _ => Except.ok (some msgWS) }

/-- A multipart message whose markup part precedes its plain-text part. -/
def msgC4cex : EmailMsg :=
  { subject := some "s", fromHeader := none, dateHeader := none,
    body := MsgPart.multi "alternative" (MsgParts.ofList
      [MsgPart.leaf "text/html" "<b>x</b>", MsgPart.leaf "text/plain" "hello"]) }

/-- A multipart message whose plain-text part comes first. -/
def msgC4wit : EmailMsg :=
  { subject := some "s", fromHeader := none, dateHeader := none,
    body := MsgPart.multi "alternative" (MsgParts.ofList
      [MsgPart.leaf "text/plain" "hello", MsgPart.leaf "text/html" "<i>x</i>"]) }

/-- A message with no Subject header. -/
def msgNS : EmailMsg :=
  { subject := none, fromHeader := none, dateHeader := none,
    body := MsgPart.leaf "text/plain" "hello" }

/-- A session serving the subjectless message. -/
def srvC9a : ImapServer := { srvC1 with fetchRFC822 := fun _ => Except.ok (some msgNS) }

/-- The item produced from the subjectless message. -/
def itemNS : SourceItem :=
  { source_type := "email", source_id := ":1", title := "No Subject", content := "hello",
    url := none, timestamp := none, raw_data := some ("", "No Subject") }

/-- A message whose Subject header is present but whitespace-only. -/
def msgWSsubj : EmailMsg :=
  { subject := some "   ", fromHeader := none, dateHeader := none,
    body := MsgPart.leaf "text/plain" "hello" }

/-- A session serving the whitespace-subject message. -/
def srvC9 : ImapServer := { srvC1 with fetchRFC822 := fun _ => Except.ok (some msgWSsubj) }

/-- The item produced from the whitespace-subject message: its title is
empty. -/
def itemC9 : SourceItem :=
  { source_type := "email", source_id := ":1", title := "", content := "hello",
    url := none, timestamp := none, raw_data := some ("", "") }

/-- A non-empty item for exercising the processor. -/
def itemW8 : SourceItem :=
  { source_type := "email", source_id := "e:1", title := "T", content := "body" }

/-- A domain environment whose collectors yield nothing (one raises, one
returns the empty list), with live downstream collaborators. -/
def envC7 : NewsSummarizer.DomainEnv :=
  { collectors := [CollectorOutcome.failed PyExc.osError, CollectorOutcome.collected []]
    processor_configured := true
    processor_known := true
    process_outcome := Except.ok "x"
    sender_configured := true
    sender_known := true
    send_outcome := Except.ok true }

end ConcreteInstances

namespace HTMLCleaner

theorem runBounded_replicate_append (c : Char) (k : Nat) (rest : List Char) :
    ∀ (j i : Nat),
      runBounded c k (List.replicate j c ++ rest) i = runBounded c k rest (i + j) := by
  intro j
  induction j with
  | zero => intro i; simp
  | succ j ih =>
    intro i
    have h : List.replicate (j + 1) c ++ rest = c :: (List.replicate j c ++ rest) := by
      simp [List.replicate_succ]
    rw [h]
    show (if c = c then runBounded c k (List.replicate j c ++ rest) (i + 1)
          else decide (i < k) && runBounded c k (List.replicate j c ++ rest) 0) = _
    rw [if_pos rfl, ih (i + 1)]
    congr 1
    omega

theorem runBounded_replicate_append_ne (c d : Char) (b : Nat) (rest : List Char)
    (hcd : ¬ c = d) (hb : 0 < b) :
    ∀ j : Nat, runBounded d b (List.replicate j c ++ rest) 0 = runBounded d b rest 0 := by
  intro j
  induction j with
  | zero => simp
  | succ j ih =>
    have h : List.replicate (j + 1) c ++ rest = c :: (List.replicate j c ++ rest) := by
      simp [List.replicate_succ]
    rw [h]
    show (if c = d then runBounded d b (List.replicate j c ++ rest) 1
          else decide (0 < b) && runBounded d b (List.replicate j c ++ rest) 0) = _
    rw [if_neg hcd, ih, decide_eq_true hb, Bool.true_and]

theorem runBounded_mono (d : Char) (b : Nat) :
    ∀ (l : List Char) (i j : Nat), i ≤ j →
      runBounded d b l j = true → runBounded d b l i = true := by
  intro l
  induction l with
  | nil =>
    intro i j hij h
    simp only [runBounded, decide_eq_true_eq] at h ⊢
    omega
  | cons x xs ih =>
    intro i j hij h
    by_cases hx : x = d
    · simp only [runBounded, if_pos hx] at h ⊢
      exact ih (i + 1) (j + 1) (by omega) h
    · simp only [runBounded, if_neg hx, Bool.and_eq_true, decide_eq_true_eq] at h ⊢
      exact ⟨by omega, h.2⟩

theorem collapseRunsAux_of_runBounded (c : Char) (k m : Nat) :
    ∀ (l : List Char) (n : Nat), runBounded c k l n = true →
      collapseRunsAux c k m l n = List.replicate n c ++ l := by
  intro l
  induction l with
  | nil =>
    intro n h
    simp only [runBounded, decide_eq_true_eq] at h
    simp [collapseRunsAux, emitRun, if_neg (by omega : ¬ k ≤ n)]
  | cons x xs ih =>
    intro n h
    by_cases hx : x = c
    · simp only [runBounded, if_pos hx] at h
      simp only [collapseRunsAux, if_pos hx, ih (n + 1) h, hx]
      rw [List.replicate_succ' , List.append_assoc]
      simp
    · simp only [runBounded, if_neg hx, Bool.and_eq_true, decide_eq_true_eq] at h
      simp [collapseRunsAux, if_neg hx, emitRun, if_neg (by omega : ¬ k ≤ n), ih 0 h.2]

theorem runBounded_collapseRunsAux (c : Char) (k m : Nat) (hm : m < k) :
    ∀ (l : List Char) (n : Nat), runBounded c k (collapseRunsAux c k m l n) 0 = true := by
  intro l
  induction l with
  | nil =>
    intro n
    have hlt : (if k ≤ n then m else n) < k := by
      by_cases h : k ≤ n
      · simpa [h] using hm
      · simpa [h] using by omega
    have := runBounded_replicate_append c k [] (if k ≤ n then m else n) 0
    simp only [collapseRunsAux, emitRun]
    rw [show List.replicate (if k ≤ n then m else n) c
          = List.replicate (if k ≤ n then m else n) c ++ [] by simp, this]
    simp only [runBounded, decide_eq_true_eq]
    omega
  | cons x xs ih =>
    intro n
    by_cases hx : x = c
    · simp only [collapseRunsAux, if_pos hx]
      exact ih (n + 1)
    · simp only [collapseRunsAux, if_neg hx, emitRun]
      have hlt : (if k ≤ n then m else n) < k := by
        by_cases h : k ≤ n
        · simpa [h] using hm
        · simpa [h] using by omega
      rw [runBounded_replicate_append]
      show (if x = c then _ else decide (0 + (if k ≤ n then m else n) < k)
              && runBounded c k (collapseRunsAux c k m xs 0) 0) = true
      rw [if_neg hx, ih 0, decide_eq_true (by omega : 0 + (if k ≤ n then m else n) < k)]
      simp

theorem collapseRunsAux_head_of_pos (c : Char) (k m : Nat) (hm : 1 ≤ m) :
    ∀ (l : List Char) (n : Nat), 1 ≤ n →
      ∃ t, collapseRunsAux c k m l n = c :: t := by
  intro l
  induction l with
  | nil =>
    intro n hn
    refine ⟨List.replicate ((if k ≤ n then m else n) - 1) c, ?_⟩
    simp only [collapseRunsAux, emitRun]
    have : 1 ≤ (if k ≤ n then m else n) := by
      by_cases h : k ≤ n <;> simp [h] <;> omega
    cases hval : (if k ≤ n then m else n) with
    | zero => omega
    | succ j => simp [List.replicate_succ]
  | cons x xs ih =>
    intro n hn
    by_cases hx : x = c
    · simp only [collapseRunsAux, if_pos hx]
      exact ih (n + 1) (by omega)
    · refine ⟨List.replicate ((if k ≤ n then m else n) - 1) c ++ x :: collapseRunsAux c k m xs 0, ?_⟩
      simp only [collapseRunsAux, if_neg hx, emitRun]
      have : 1 ≤ (if k ≤ n then m else n) := by
        by_cases h : k ≤ n <;> simp [h] <;> omega
      cases hval : (if k ≤ n then m else n) with
      | zero => omega
      | succ j => simp [List.replicate_succ]

theorem runBounded_collapseRunsAux_other (c d : Char) (k m b : Nat)
    (hcd : ¬ c = d) (hm : 1 ≤ m) (hk : 1 ≤ k) (hb : 1 ≤ b) :
    ∀ (l : List Char) (i n : Nat), runBounded d b l i = true →
      runBounded d b (collapseRunsAux c k m l n) (if n = 0 then i else 0) = true := by
  intro l
  induction l with
  | nil =>
    intro i n h
    simp only [runBounded, decide_eq_true_eq] at h
    simp only [collapseRunsAux, emitRun]
    by_cases hn : n = 0
    · subst hn
      simp only [if_neg (by omega : ¬ k ≤ 0)]
      simpa [runBounded] using h
    · simp only [if_neg hn]
      have hj : 1 ≤ (if k ≤ n then m else n) := by
        by_cases hkn : k ≤ n <;> simp [hkn] <;> omega
      rw [show List.replicate (if k ≤ n then m else n) c
            = List.replicate (if k ≤ n then m else n) c ++ [] by simp]
      rw [runBounded_replicate_append_ne c d b [] hcd (by omega)]
      simpa [runBounded] using hb
  | cons x xs ih =>
    intro i n h
    by_cases hx : x = c
    · -- the character extends the pending run of c
      have hxd : ¬ x = d := by
        intro hxe; exact hcd (hxe ▸ hx ▸ rfl)
      simp only [runBounded, if_neg hxd, Bool.and_eq_true, decide_eq_true_eq] at h
      simp only [collapseRunsAux, if_pos hx]
      by_cases hn : n = 0
      · subst hn
        obtain ⟨t, ht⟩ := collapseRunsAux_head_of_pos c k m hm xs 1 (by omega)
        have h0 := ih 0 1 h.2
        rw [ht] at h0 ⊢
        simp only [if_neg (by omega : ¬ (1 : Nat) = 0)] at h0
        simp only [runBounded, if_neg hcd, Bool.and_eq_true, decide_eq_true_eq] at h0 ⊢
        refine ⟨?_, h0.2⟩
        simpa using h.1
      · have := ih 0 (n + 1) h.2
        simp only [if_neg (by omega : ¬ n + 1 = 0)] at this
        simpa [if_neg hn] using this
    · -- the character terminates the pending run
      simp only [collapseRunsAux, if_neg hx, emitRun]
      by_cases hxd : x = d
      · -- this character extends the pending run of d
        simp only [runBounded, if_pos hxd] at h
        by_cases hn : n = 0
        · subst hn
          simp only [if_neg (by omega : ¬ k ≤ 0), List.replicate_zero, List.nil_append,
            if_pos rfl]
          show (if x = d then runBounded d b (collapseRunsAux c k m xs 0) (i + 1)
                else _) = true
          rw [if_pos hxd]
          have := ih (i + 1) 0 h
          simpa using this
        · simp only [if_neg hn]
          rw [runBounded_replicate_append_ne c d b _ hcd (by omega)]
          show (if x = d then runBounded d b (collapseRunsAux c k m xs 0) (0 + 1)
                else _) = true
          rw [if_pos hxd]
          have h1 := ih (i + 1) 0 h
          simp only [show (if (0:Nat) = 0 then i + 1 else 0) = i + 1 by simp] at h1
          exact runBounded_mono d b _ 1 (i + 1) (by omega) h1
      · -- a character that is neither c nor d
        simp only [runBounded, if_neg hxd, Bool.and_eq_true, decide_eq_true_eq] at h
        by_cases hn : n = 0
        · subst hn
          simp only [if_neg (by omega : ¬ k ≤ 0), List.replicate_zero, List.nil_append,
            if_pos rfl]
          show (if x = d then _ else decide (i < b)
                  && runBounded d b (collapseRunsAux c k m xs 0) 0) = true
          rw [if_neg hxd, decide_eq_true h.1]
          have := ih 0 0 h.2
          simpa using this
        · simp only [if_neg hn]
          rw [runBounded_replicate_append_ne c d b _ hcd (by omega)]
          show (if x = d then _ else decide (0 < b)
                  && runBounded d b (collapseRunsAux c k m xs 0) 0) = true
          rw [if_neg hxd, decide_eq_true (by omega : 0 < b)]
          have h2 := runBounded_mono d b (collapseRunsAux c k m xs 0) 0 _
            (Nat.zero_le _) (ih 0 0 h.2)
          simp [h2]

end HTMLCleaner

namespace HTMLCleaner

theorem collapseRuns_of_runBounded (c : Char) (k m : Nat) (l : List Char)
    (h : runBounded c k l 0 = true) : collapseRuns c k m l = l := by
  have h2 := collapseRunsAux_of_runBounded c k m l 0 h
  simpa [collapseRuns] using h2

theorem runBounded_collapseRuns (c : Char) (k m : Nat) (hm : m < k) (l : List Char) :
    runBounded c k (collapseRuns c k m l) 0 = true :=
  runBounded_collapseRunsAux c k m hm l 0

theorem runBounded_collapseRuns_other (c d : Char) (k m b : Nat)
    (hcd : ¬ c = d) (hm : 1 ≤ m) (hk : 1 ≤ k) (hb : 1 ≤ b)
    (l : List Char) (h : runBounded d b l 0 = true) :
    runBounded d b (collapseRuns c k m l) 0 = true :=
  runBounded_mono d b _ 0 _ (Nat.zero_le _)
    (runBounded_collapseRunsAux_other c d k m b hcd hm hk hb l 0 0 h)

/-- C6: the whitespace-normalization operation `_normalize_whitespace` is
idempotent — applying it twice yields the same result as applying it once,
for every input string. -/
theorem claim_c6_normalize_idempotent (s : String) :
    normalize_whitespace (normalize_whitespace s) = normalize_whitespace s := by
  have hnl : runBounded '\n' 3 (collapseRuns '\n' 3 2 s.data) 0 = true :=
    runBounded_collapseRuns '\n' 3 2 (by omega) s.data
  have hnl2 : runBounded '\n' 3 (collapseRuns ' ' 2 1 (collapseRuns '\n' 3 2 s.data)) 0 = true :=
    runBounded_collapseRuns_other ' ' '\n' 2 1 3 (by decide) (by omega) (by omega) (by omega)
      _ hnl
  have hsp : runBounded ' ' 2 (collapseRuns ' ' 2 1 (collapseRuns '\n' 3 2 s.data)) 0 = true :=
    runBounded_collapseRuns ' ' 2 1 (by omega) _
  show String.mk (collapseRuns ' ' 2 1 (collapseRuns '\n' 3 2
        (String.mk (collapseRuns ' ' 2 1 (collapseRuns '\n' 3 2 s.data))).data))
      = String.mk (collapseRuns ' ' 2 1 (collapseRuns '\n' 3 2 s.data))
  rw [show (String.mk (collapseRuns ' ' 2 1 (collapseRuns '\n' 3 2 s.data))).data
        = collapseRuns ' ' 2 1 (collapseRuns '\n' 3 2 s.data) from rfl]
  rw [collapseRuns_of_runBounded '\n' 3 2 _ hnl2, collapseRuns_of_runBounded ' ' 2 1 _ hsp]

end HTMLCleaner

theorem ne_empty_of_pystrip_ne (s : String) (h : pystrip s ≠ "") : s ≠ "" :=
  fun hs => h (by rw [hs]; rfl)

namespace EmailCollector

theorem content_loop_eq_find (ext : ExternalFns) :
    ∀ ps : List MsgPart,
      content_loop ext ps =
        (match ps.find? is_text_part with
         | some p => HTMLCleaner.clean ext.html2textHandle (part_payload p)
         | none => "") := by
  intro ps
  induction ps with
  | nil => rfl
  | cons p rest ih =>
    by_cases h1 : part_content_type p = "text/plain"
    · by_cases h2 : part_payload p = ""
      · have hf : is_text_part p = false := by simp [is_text_part, h2]
        simp [content_loop, h1, h2, hf, ih]
      · have hf : is_text_part p = true := by simp [is_text_part, h1, h2]
        simp [content_loop, h1, h2, hf]
    · by_cases h3 : part_content_type p = "text/html"
      · by_cases h2 : part_payload p = ""
        · have hf : is_text_part p = false := by simp [is_text_part, h2]
          simp [content_loop, h1, h3, h2, hf, ih]
        · have hf : is_text_part p = true := by simp [is_text_part, h3, h2]
          simp [content_loop, h1, h3, h2, hf]
      · have hf : is_text_part p = false := by simp [is_text_part, h1, h3]
        simp [content_loop, h1, h3, hf, ih]

theorem process_email_some_content (ext : ExternalFns) (cfg : CollectorConfig)
    (srv : ImapServer) (msg_id : String) (it : SourceItem)
    (h : process_email ext cfg srv msg_id = Except.ok (some it)) :
    pystrip it.content ≠ "" := by
  simp only [process_email] at h
  split at h
  · exact absurd h (by simp)
  · exact absurd h (by simp)
  · next msg heq =>
    split at h
    · exact absurd h (by simp)
    · next hc =>
      simp only [Except.ok.injEq, Option.some.injEq] at h
      rw [← h]
      exact hc

theorem processLoop_content (ext : ExternalFns) (cfg : CollectorConfig) (srv : ImapServer) :
    ∀ (ids : List String) (items0 : List SourceItem) (tr0 : List StoreOp),
      (∀ it ∈ items0, pystrip it.content ≠ "") →
      ∀ it ∈ (processLoop ext cfg srv ids items0 tr0).2.1, pystrip it.content ≠ "" := by
  intro ids
  induction ids with
  | nil =>
    intro items0 tr0 hinv it hmem
    exact hinv it (by simpa [processLoop] using hmem)
  | cons msg_id rest ih =>
    intro items0 tr0 hinv it hmem
    simp only [processLoop] at hmem
    revert hmem
    split
    · next e heq =>
      split
      · intro hmem
        exact ih items0 tr0 hinv it hmem
      · intro hmem
        exact hinv it (by simpa using hmem)
    · intro hmem
      exact ih items0 tr0 hinv it hmem
    · next item heq =>
      have hitem : pystrip item.content ≠ "" :=
        process_email_some_content ext cfg srv msg_id item heq
      have hinv' : ∀ x ∈ items0 ++ [item], pystrip x.content ≠ "" := by
        intro x hx
        rcases List.mem_append.mp hx with hx0 | hx1
        · exact hinv x hx0
        · rcases List.mem_singleton.mp hx1 with rfl
          exact hitem
      split
      · intro hmem
        exact ih _ tr0 hinv' it hmem
      · split
        · intro hmem
          exact ih _ _ hinv' it hmem
        · split
          · intro hmem
            exact ih _ _ hinv' it hmem
          · intro hmem
            exact hinv' it (by simpa using hmem)

theorem apply_finally_ok (srv : ImapServer)
    (r : Except PyExc (List SourceItem) × List StoreOp) (items : List SourceItem)
    (h : (apply_finally srv r).1 = Except.ok items) : r.1 = Except.ok items := by
  unfold apply_finally at h
  split at h
  · exact h
  · split at h
    · exact h
    · exact absurd h (by simp)

theorem collect_ok_content (ext : ExternalFns) (cfg : CollectorConfig) (now : Date)
    (srv : ImapServer) (items : List SourceItem)
    (h : (collect ext cfg now srv).1 = Except.ok items) :
    ∀ it ∈ items, pystrip it.content ≠ "" := by
  unfold collect at h
  split at h
  · next e heq =>
    revert h
    split
    · intro h
      simp only [Except.ok.injEq] at h
      intro it hmem
      rw [← h] at hmem
      exact absurd hmem (by simp)
    · intro h
      exact absurd h (by simp)
  · have h2 := apply_finally_ok srv _ items h
    clear h
    split at h2
    · revert h2
      split
      · intro h2
        simp only [Except.ok.injEq] at h2
        intro it hmem
        rw [← h2] at hmem
        exact absurd hmem (by simp)
      · intro h2
        exact absurd h2 (by simp)
    · next sres =>
      split at h2
      · simp only [Except.ok.injEq] at h2
        intro it hmem
        rw [← h2] at hmem
        exact absurd hmem (by simp)
      · revert h2
        split
        · split
          · intro h2
            simp only [Except.ok.injEq] at h2
            intro it hmem
            rw [← h2] at hmem
            exact absurd hmem (by simp)
          · intro h2
            exact absurd h2 (by simp)
        · next mlist hse =>
          split
          · next items' tr heq =>
            intro h2
            simp only [Except.ok.injEq] at h2
            intro it hmem
            rw [← h2] at hmem
            have hall := processLoop_content ext cfg srv mlist [] [] (by simp) it
            rw [heq] at hall
            exact hall hmem
          · next e items' tr heq =>
            split
            · intro h2
              simp only [Except.ok.injEq] at h2
              intro it hmem
              rw [← h2] at hmem
              have hall := processLoop_content ext cfg srv mlist [] [] (by simp) it
              rw [heq] at hall
              exact hall hmem
            · intro h2
              exact absurd h2 (by simp)

end EmailCollector

namespace EmailCollector

/-- C1: the claim states that with mark-as-seen disabled the flag mutation
performed after fetch removes the Seen flag.  The code instead issues
`store(msg_id, "+FLAGS", "\\Seen")`, which sets it: running `collect` on a
healthy one-message session with `mark_as_seen = False` succeeds and the one
issued STORE command carries `+FLAGS`, not `-FLAGS`. -/
theorem claim_c1_store_adds_seen_flag :
    collect ext0 cfgC1 today0 srvC1
      = (Except.ok [itemC1], [{ msgId := "1", command := "+FLAGS", flags := "\\Seen" }])
    ∧ ("+FLAGS" : String) ≠ "-FLAGS" :=
  ⟨rfl, by decide⟩

/-- C2 as stated is false: a session-level failure raising an OS-level
exception (e.g. `socket.gaierror` from the `IMAP4_SSL` constructor on an
unreachable host) propagates out of `collect` instead of yielding an empty
list, because the code catches only `imaplib.IMAP4.error`. -/
theorem claim_c2_cex_os_error_propagates :
    collect ext0 cfg0 today0 srvOsFail = (Except.error PyExc.osError, [])
    ∧ (Except.error PyExc.osError : Except PyExc (List SourceItem)) ≠ Except.ok [] :=
  ⟨rfl, fun h => Except.noConfusion h⟩

/-- C2 amended: session-level failures that raise the IMAP protocol error
type (during connect, login, the ID handshake, or select) and non-OK select
statuses make `collect` return an empty list without raising, provided the
session close itself raises at most a protocol error; session-level failures
of other exception types propagate out of `collect` and are handled by the
orchestrator's per-collector catch. -/
theorem claim_c2_protocol_failure_empty
    (ext : ExternalFns) (cfg : CollectorConfig) (now : Date) (srv : ImapServer)
    (h : connect_steps srv = Except.error PyExc.imap4Error
      ∨ (connect_steps srv = Except.ok ()
          ∧ (srv.closeLogout = Except.ok ()
             ∨ srv.closeLogout = Except.error PyExc.imap4Error)
          ∧ (srv.selectMailbox cfg.mailbox = Except.error PyExc.imap4Error
             ∨ ∃ sres, srv.selectMailbox cfg.mailbox = Except.ok sres ∧ sres.1 ≠ "OK"))) :
    collect ext cfg now srv = (Except.ok [], []) := by
  rcases h with hconn | ⟨hconn, hclose, hsel⟩
  · unfold collect
    rw [hconn]
    simp
  · unfold collect
    rw [hconn]
    have hfin : ∀ r, apply_finally srv r = r := by
      intro r
      unfold apply_finally
      rcases hclose with hcl | hcl
      · rw [hcl]
      · rw [hcl]
        simp
    rcases hsel with hse | ⟨sres, hse, hne⟩
    · rw [hse, hfin]
      simp
    · rw [hse, hfin]
      simp [hne]

/-- C2 witness: a connect step failing with the protocol error yields the
empty list. -/
theorem claim_c2_witness :
    collect ext0 cfg0 today0 srvImapFail = (Except.ok [], []) :=
  claim_c2_protocol_failure_empty ext0 cfg0 today0 srvImapFail (Or.inl rfl)

/-- C3: a message whose extracted body is empty or whitespace-only after
normalization (it strips to the empty string) yields no item from
`_process_email`; consequently every item in a list returned by `collect`
has non-empty content. -/
theorem claim_c3_nonempty_content :
    (∀ (ext : ExternalFns) (cfg : CollectorConfig) (srv : ImapServer)
       (msg_id : String) (msg : EmailMsg),
        srv.fetchRFC822 msg_id = Except.ok (some msg) →
        pystrip (extract_content ext msg) = "" →
        process_email ext cfg srv msg_id = Except.ok none)
    ∧ (∀ (ext : ExternalFns) (cfg : CollectorConfig) (now : Date) (srv : ImapServer)
         (items : List SourceItem),
          (collect ext cfg now srv).1 = Except.ok items →
          ∀ it ∈ items, it.content ≠ "") := by
  constructor
  · intro ext cfg srv msg_id msg hfetch hempty
    simp only [process_email, hfetch]
    rw [if_pos hempty]
  · intro ext cfg now srv items h it hmem
    exact ne_empty_of_pystrip_ne it.content (collect_ok_content ext cfg now srv items h it hmem)

/-- C3 witness: the whitespace-body message yields no item, and the item of
the healthy run has non-empty content. -/
theorem claim_c3_witness :
    process_email ext0 cfg0 srvC3 "1" = Except.ok none ∧ itemC1.content ≠ "" :=
  ⟨claim_c3_nonempty_content.1 ext0 cfg0 srvC3 "1" msgWS rfl rfl,
   claim_c3_nonempty_content.2 ext0 cfgC1 today0 srvC1 [itemC1] rfl itemC1 (by simp)⟩

/-- C4 as stated is false: in a multipart message whose markup part precedes
its non-empty plain-text part, extraction returns the cleaned markup — here
the result is the markup text while the message's only plain-text part
cleans to a different string. -/
theorem claim_c4_cex_markup_wins :
    extract_content ext0 msgC4cex = "<b>x</b>"
    ∧ HTMLCleaner.clean ext0.html2textHandle "hello" = "hello"
    ∧ ("<b>x</b>" : String) ≠ "hello" :=
  ⟨rfl, rfl, by decide⟩

/-- C4 amended: body extraction is first-match-wins over the walk order: for
a multipart message, the first walked part whose content type is
`text/plain` or `text/html` and whose payload is non-empty is cleaned and
returned (so a plain-text part is used exactly when it is the first such
part, and a markup part earlier in the order takes precedence over a later
plain-text part); a single-part message's non-empty body is used directly. -/
theorem claim_c4_first_match :
    (∀ (ext : ExternalFns) (msg : EmailMsg) (st : String) (ps : MsgParts) (p : MsgPart),
        msg.body = MsgPart.multi st ps →
        (walk msg.body).find? is_text_part = some p →
        extract_content ext msg = HTMLCleaner.clean ext.html2textHandle (part_payload p))
    ∧ (∀ (ext : ExternalFns) (msg : EmailMsg) (ct payload : String),
        msg.body = MsgPart.leaf ct payload →
        payload ≠ "" →
        extract_content ext msg = HTMLCleaner.clean ext.html2textHandle payload) := by
  constructor
  · intro ext msg st ps p hbody hfind
    rw [hbody] at hfind
    simp only [extract_content, hbody]
    rw [content_loop_eq_find, hfind]
  · intro ext msg ct payload hbody hne
    simp only [extract_content, hbody]
    rw [if_neg hne]

/-- C4 witness: when the plain-text part comes first, it wins. -/
theorem claim_c4_witness :
    extract_content ext0 msgC4wit
      = HTMLCleaner.clean ext0.html2textHandle
          (part_payload (MsgPart.leaf "text/plain" "hello")) :=
  claim_c4_first_match.1 ext0 msgC4wit "alternative"
    (MsgParts.ofList
      [MsgPart.leaf "text/plain" "hello", MsgPart.leaf "text/html" "<i>x</i>"])
    (MsgPart.leaf "text/plain" "hello") rfl rfl

/-- C5: the selection-criterion builder is a deterministic pure function of
the reference clock and configured window: it always embeds the date
`now − time_range_days` formatted as `%d-%b-%Y` inside the unread-since
filter, and at the spec's reference instance (clock 2024-06-10, window 1)
the embedded date is "09-Jun-2024"; month and leap-year borrows are carried
correctly. -/
theorem claim_c5_search_criteria :
    (∀ (now : Date) (n : Int),
      build_search_criteria now n
        = "(UNSEEN SINCE \""
            ++ strftime_d_b_Y (civilFromDays (daysFromCivil now.year now.month now.day - n))
            ++ "\")")
    ∧ build_search_criteria today0 1 = "(UNSEEN SINCE \"09-Jun-2024\")"
    ∧ build_search_criteria { year := 2024, month := 3, day := 1 } 1
        = "(UNSEEN SINCE \"29-Feb-2024\")"
    ∧ build_search_criteria { year := 2025, month := 1, day := 1 } 1
        = "(UNSEEN SINCE \"31-Dec-2024\")" :=
  ⟨fun _ _ => rfl, rfl, rfl, rfl⟩

/-- C9 as stated is false: a message whose Subject header is present but
whitespace-only produces an item whose title is the empty string — the
produced item exists and its title is empty rather than "No Subject". -/
theorem claim_c9_cex_whitespace_subject :
    process_email ext0 cfg0 srvC9 "1" = Except.ok (some itemC9)
    ∧ itemC9.title = "" :=
  ⟨rfl, rfl⟩

/-- C9 amended: the title of a produced item is the decoded and stripped
subject header; when the subject header is missing or empty it falls back to
"No Subject" (given that decoding the sentinel returns the sentinel, as the
header decoder does on a plain string), but a present whitespace-only
subject strips to an empty title, so the title can be empty. -/
theorem claim_c9_title_fallback (ext : ExternalFns) (cfg : CollectorConfig)
    (srv : ImapServer) (msg_id : String) (msg : EmailMsg) (it : SourceItem)
    (hfetch : srv.fetchRFC822 msg_id = Except.ok (some msg))
    (hdec : ext.decodeHeaderParts "No Subject" = ["No Subject"])
    (hit : process_email ext cfg srv msg_id = Except.ok (some it)) :
    it.title = decode_header ext (msg.subject.getD "No Subject")
    ∧ ((msg.subject = none ∨ msg.subject = some "") → it.title = "No Subject") := by
  simp only [process_email, hfetch] at hit
  split at hit
  · exact absurd hit (by simp)
  · simp only [Except.ok.injEq, Option.some.injEq] at hit
    rw [← hit]
    constructor
    · rfl
    · rintro (hs | hs) <;> rw [hs]
      · simp only [Option.getD_none]
        unfold decode_header
        rw [if_neg (by decide), hdec]
        rfl
      · rfl

/-- C9 witness: a missing subject header falls back to "No Subject". -/
theorem claim_c9_witness : itemNS.title = "No Subject" :=
  (claim_c9_title_fallback ext0 cfg0 srvC9a "1" msgNS itemNS rfl rfl rfl).2 (Or.inl rfl)

end EmailCollector

namespace NewsSummarizer

/-- C7: a domain whose aggregate collected item list is empty stops without
invoking the summarization processor or the delivery sender — the list of
downstream collaborator calls is empty. -/
theorem claim_c7_empty_skips_downstream (env : DomainEnv)
    (h : collect_items env.collectors = []) :
    process_domain env = [] := by
  unfold process_domain
  simp [h]

/-- C7 witness: collectors that fail or return nothing trigger no downstream
calls even with live processor and sender behaviours configured. -/
theorem claim_c7_witness : process_domain envC7 = [] :=
  claim_c7_empty_skips_downstream envC7 rfl

end NewsSummarizer

namespace AIProcessor

/-- C8: when the summarization call fails with any of the transport,
rate-limit, or API error kinds the collaborator can raise, `process` does
not propagate the exception: it returns the textual failure notice built
from the exception's message. -/
theorem claim_c8_failure_notice (prompt_template msgstr : String)
    (k : OpenAIExcKind) (items : List SourceItem) (h : items ≠ []) :
    process prompt_template { completion := Except.error (k, msgstr) } items
      = ("AI处理失败: " ++ msgstr, true) := by
  cases items with
  | nil => exact absurd rfl h
  | cons a rest => cases k <;> rfl

/-- C8 witness: a rate-limit failure on a singleton item list yields the
failure notice. -/
theorem claim_c8_witness :
    process "p" { completion := Except.error (OpenAIExcKind.rateLimitError, "429") } [itemW8]
      = ("AI处理失败: 429", true) :=
  claim_c8_failure_notice "p" "429" OpenAIExcKind.rateLimitError [itemW8]
    (by simp)

/-- C10: on the empty item list, `process` returns the fixed non-empty
notice string without invoking the language-model completion call (the
invocation flag is false for every completion behaviour). -/
theorem claim_c10_empty_notice :
    (∀ (prompt_template : String) (env : AIEnv),
       process prompt_template env [] = ("今日无新闻内容。", false))
    ∧ ("今日无新闻内容。" : String) ≠ "" :=
  ⟨fun _ _ => rfl, by decide⟩

end AIProcessor
